import Mathlib

/-!
Shallow embedding of the multivendor e-commerce backend core
(store authorization, category/product catalog operations, asset
lifecycle helpers, slug and SKU generation), with theorems checking
the natural-language specification against the code.
-/

set_option autoImplicit false

namespace MV

/-- MongoDB object ids are modelled as plain strings. -/
abbrev Oid := String

/-- Platform-global user roles (`User.role`). -/
inductive GlobalRole where
  | customer
  | admin
  | superadmin
deriving DecidableEq, Repr

/-- Per-store roles (`User.storeRoles[].role`). -/
inductive SRole where
  | store_admin
  | store_manager
  | store_staff
deriving DecidableEq, Repr

/-- One entry of `User.storeRoles`. -/
structure StoreRoleEntry where
  storeId : Oid
  role : SRole
deriving DecidableEq, Repr

/-- The authenticated principal attached to the request (`req.user`),
as decoded from the token. -/
structure Principal where
  id : Oid
  role : GlobalRole
deriving DecidableEq, Repr

/-- The live `User` record as re-fetched from the database
(`User.findById`). Only the fields the middleware reads. -/
structure DbUser where
  id : Oid
  storeRoles : List StoreRoleEntry
deriving DecidableEq, Repr

/-- Outcome of the `authorizeStore` middleware: the HTTP response it
short-circuits with, or `allowed` (it called `next()`), carrying the
`req.storeRole` attachment made on the store-role path. -/
inductive AuthResult where
  | authRequired            -- 401 Authentication required
  | storeRequired           -- 400 Store context is required
  | userNotFound            -- 404 User not found
  | denied                  -- 403 You do not have the required permissions for this store
  | allowed (storeRole : Option SRole)
deriving DecidableEq, Repr

/-- `authorizeStore(requiredRoles)` from `src/middleware/storeAuthorization.js`.
`findById` stands for the database lookup `User.findById(req.user.id)`. -/
def authorizeStore (requiredRoles : List SRole) (reqUser : Option Principal)
    (reqStore : Option Oid) (findById : Oid → Option DbUser) : AuthResult :=
  match reqUser with
  | none => .authRequired
  | some u =>
    match reqStore with
    | none => .storeRequired
    | some sid =>
      if u.role = .superadmin then .allowed none
      else if u.role = .admin then .allowed none
      else
        match findById u.id with
        | none => .userNotFound
        | some dbUser =>
          let hasRequiredRole := dbUser.storeRoles.any fun sr =>
            sr.storeId == sid && requiredRoles.contains sr.role
          if hasRequiredRole then
            .allowed ((dbUser.storeRoles.find? fun sr => sr.storeId == sid).map (·.role))
          else .denied

/-- On the customer path the middleware reduces to the store-role test. -/
theorem authorizeStore_customer (required : List SRole) (p : Principal) (sid : Oid)
    (findById : Oid → Option DbUser) (dbUser : DbUser)
    (hcust : p.role = .customer) (hdb : findById p.id = some dbUser) :
    authorizeStore required (some p) (some sid) findById =
      if dbUser.storeRoles.any (fun sr => sr.storeId == sid && required.contains sr.role) then
        .allowed ((dbUser.storeRoles.find? fun sr => sr.storeId == sid).map (·.role))
      else .denied := by
  simp only [authorizeStore, hcust, hdb]
  rfl

/-- The store-role membership test agrees with its propositional reading. -/
theorem storeRole_any_iff (required : List SRole) (sid : Oid) (l : List StoreRoleEntry) :
    (l.any fun sr => sr.storeId == sid && required.contains sr.role) = true ↔
      ∃ sr ∈ l, sr.storeId = sid ∧ sr.role ∈ required := by
  rw [List.any_eq_true]
  constructor
  · rintro ⟨sr, hmem, hp⟩
    have hp' := (Bool.and_eq_true _ _).mp hp
    exact ⟨sr, hmem, eq_of_beq hp'.1, List.elem_iff.mp hp'.2⟩
  · rintro ⟨sr, hmem, hsid, hrole⟩
    refine ⟨sr, hmem, (Bool.and_eq_true _ _).mpr ⟨beq_iff_eq.mpr hsid, ?_⟩⟩
    exact List.elem_iff.mpr hrole

/-- C1: the store authorization decision follows the ordered chain: a
superadmin principal is allowed unconditionally (for every `findById`,
so in particular with no StoreRole entry for the store); otherwise an
admin principal is allowed; otherwise the per-store role entry is looked
up on the freshly re-fetched user record, and the request is allowed
exactly when an entry for this exact store id exists whose role is in
the allowed set, denied when no entry for the store exists, and denied
when entries exist but none carries an allowed role. -/
theorem authorizeStore_decision_chain
    (required : List SRole) (p : Principal) (sid : Oid)
    (findById : Oid → Option DbUser) :
    (p.role = .superadmin →
      authorizeStore required (some p) (some sid) findById = .allowed none) ∧
    (p.role = .admin →
      authorizeStore required (some p) (some sid) findById = .allowed none) ∧
    (p.role = .customer → ∀ dbUser, findById p.id = some dbUser →
      ((∃ sr ∈ dbUser.storeRoles, sr.storeId = sid ∧ sr.role ∈ required) →
        authorizeStore required (some p) (some sid) findById
          = .allowed ((dbUser.storeRoles.find? fun sr => sr.storeId == sid).map (·.role))) ∧
      ((¬ ∃ sr ∈ dbUser.storeRoles, sr.storeId = sid) →
        authorizeStore required (some p) (some sid) findById = .denied) ∧
      ((¬ ∃ sr ∈ dbUser.storeRoles, sr.storeId = sid ∧ sr.role ∈ required) →
        authorizeStore required (some p) (some sid) findById = .denied)) := by
  refine ⟨fun hsup => ?_, fun hadm => ?_, fun hcust dbUser hdb => ?_⟩
  · simp [authorizeStore, hsup]
  · simp [authorizeStore, hadm]
  · rw [authorizeStore_customer required p sid findById dbUser hcust hdb]
    refine ⟨fun hex => ?_, fun hnone => ?_, fun hnot => ?_⟩
    · rw [if_pos ((storeRole_any_iff required sid _).mpr hex)]
    · rw [if_neg]
      intro hc
      rcases (storeRole_any_iff required sid _).mp hc with ⟨sr, hmem, hsid, _⟩
      exact hnone ⟨sr, hmem, hsid⟩
    · rw [if_neg]
      intro hc
      exact hnot ((storeRole_any_iff required sid _).mp hc)

/-- Concrete instance of the C1 theorem: a customer with a
`store_admin` entry for store `s1` is allowed against allowed-set
`[store_admin]`, with the resolved store role attached. -/
theorem authorizeStore_decision_chain_witness :
    authorizeStore [.store_admin] (some ⟨"u1", .customer⟩) (some "s1")
      (fun _ => some ⟨"u1", [⟨"s1", .store_admin⟩]⟩) = .allowed (some .store_admin) := by
  have h := authorizeStore_decision_chain [.store_admin] ⟨"u1", .customer⟩ "s1"
      (fun _ => some ⟨"u1", [⟨"s1", .store_admin⟩]⟩)
  have h2 := (h.2.2 rfl ⟨"u1", [⟨"s1", .store_admin⟩]⟩ rfl).1
      ⟨⟨"s1", .store_admin⟩, by simp⟩
  simpa using h2

/-! ## Remote object store and asset pipeline -/

/-- The S3-compatible object store (`src/utils/s3.js`), abstracted: which
`put` and `delete` operations succeed, and the public domain used to build
the returned URL. `uploadToS3` returns `https://<domain>/<key>`. -/
structure S3 where
  putOk : String → Bool
  delOk : String → Bool
  publicDomain : String

/-- The public URL constructed for a stored key. -/
def s3Url (s3 : S3) (key : String) : String :=
  "https://" ++ s3.publicDomain ++ "/" ++ key

/-- `uploadToS3(file, key)`: persists one object under `key` and returns its
public URL, or throws. The URL depends only on the key. -/
def uploadToS3 (s3 : S3) (key : String) : Except String String :=
  if s3.putOk key then .ok (s3Url s3 key)
  else .error "upload failed"

/-- `deleteFromS3(key)`: deletes one object or throws. -/
def deleteFromS3 (s3 : S3) (key : String) : Except String Unit :=
  if s3.delOk key then .ok () else .error "delete failed"

/-- An uploaded multipart file; only the original filename matters for the
generated keys (the binary payload and resizing are abstracted). -/
structure UploadedFile where
  originalname : String
deriving DecidableEq, Repr

/-- `originalname.replace(/\s+/g, '')`: strip all whitespace. -/
def sanitizeFilename (s : String) : String :=
  String.mk (s.data.filter fun c => !c.isWhitespace)

/-- Leading and trailing whitespace removed (JS `trim`, also the Joi
`trim()` conversion), defined by structural recursion on the characters. -/
def jsTrim (s : String) : String :=
  String.mk (((s.data.dropWhile Char.isWhitespace).reverse.dropWhile Char.isWhitespace).reverse)

/-- `split(sep)` on a single-character separator, by structural recursion:
`splitOnChar ',' "a,b".data = ["a".data, "b".data]`. -/
def splitOnChar (sep : Char) : List Char → List (List Char)
  | [] => [[]]
  | x :: xs =>
    match splitOnChar sep xs with
    | [] => [[]]
    | y :: ys => if x = sep then [] :: y :: ys else (x :: y) :: ys

/-- JS `str.split(sep)` for a one-character separator. -/
def jsSplit (sep : Char) (s : String) : List String :=
  (splitOnChar sep s.data).map String.mk

/-- `url.split('/').pop()`: the last path segment of a URL, used as the
object key for deletion. -/
def lastSeg (url : String) : String :=
  (jsSplit '/' url).getLastD ""

/-- `processAndUploadImage` from `categoryController.js` (also the shape of
the product version): resizes to the 400x400 inside preset (resizing
abstracted), then uploads the original and the thumbnail as two objects and
returns both URLs. `now` stands for `Date.now()`; `pathPfx` is the
`pathPrefix` argument. -/
def processAndUploadImageCategory (s3 : S3) (file : UploadedFile) (pathPfx : String)
    (now : Nat) : Except String (String × String) := do
  let nm := sanitizeFilename file.originalname
  let image ← uploadToS3 s3 (pathPfx ++ "/" ++ toString now ++ "_" ++ nm)
  let thumbnail ← uploadToS3 s3 (pathPfx ++ "/thumbnails/" ++ toString now ++ "_thumb_" ++ nm)
  pure (image, thumbnail)

/-- `processAndUploadImage` from the store controller (`src/unnamed/part_000`):
resizes to the logo (200x200 contain) or banner (1200x400 cover) preset into
`thumbnailBuffer`, but then uploads only the original file and returns that
single URL; the thumbnail buffer is never uploaded. -/
def processAndUploadImageStore (s3 : S3) (file : UploadedFile) (type : String)
    (now : Nat) : Except String String :=
  let nm := sanitizeFilename file.originalname
  let path := "stores/" ++ type ++ "s"
  uploadToS3 s3 (path ++ "/" ++ toString now ++ "_" ++ nm)

/-- An original+thumbnail URL pair as stored on products. The fields are
optional to mirror the JS truthiness guards on document fields. -/
structure ImagePair where
  original : Option String
  thumbnail : Option String
deriving DecidableEq, Repr

/-- `processAndUploadImage` from `productController.js`: two uploads under
the per-store path, each keyed with its own `Date.now()` call
(`nowO`, `nowT`). -/
def processAndUploadImageProduct (s3 : S3) (file : UploadedFile) (storeId : Oid)
    (pathPfx : String) (nowO nowT : Nat) : Except String ImagePair := do
  let nm := sanitizeFilename file.originalname
  let original ← uploadToS3 s3
    (pathPfx ++ "/" ++ storeId ++ "/original/" ++ toString nowO ++ "_" ++ nm)
  let thumbnail ← uploadToS3 s3
    (pathPfx ++ "/" ++ storeId ++ "/thumbnails/" ++ toString nowT ++ "_thumb_" ++ nm)
  pure ⟨some original, some thumbnail⟩

/-! ## Category data model and operations -/

/-- A stored `Category` document (`src/unnamed/part_005`). -/
structure Category where
  id : Oid
  name : String
  description : Option String
  image : String
  thumbnail : String
  isSubcategory : Bool
  parentCategory : Option Oid
  storeId : Oid
deriving DecidableEq, Repr

/-- The request body shared by category create and update. Absent fields
are `none`. -/
structure CategoryBody where
  name : Option String
  description : Option String
  isSubcategory : Option Bool
  parentCategoryId : Option String
  storeId : Option String
deriving DecidableEq, Repr

/-- Joi `string().trim().min(lo).max(hi)` on a present value: the value is
trimmed, the empty string is rejected, then the length bounds apply. -/
def joiString (lo hi : Nat) (s : String) : Bool :=
  let t := jsTrim s
  !(t == "") && decide (lo ≤ t.length) && decide (t.length ≤ hi)

/-- The conditional `parentCategoryId` rule: required (trimmed length 24)
when `isSubcategory` is literally `true`, forbidden otherwise. -/
def joiParentRule (isSub : Option Bool) (pid : Option String) : Bool :=
  match isSub, pid with
  | some true, some p => (jsTrim p).length == 24
  | some true, none => false
  | _, some _ => false
  | _, none => true

/-- The Joi schema of `createCategory` (name required). The per-field
message text is abstracted into a single validation error. -/
def validCreateCategoryBody (b : CategoryBody) : Bool :=
  (match b.name with | some s => joiString 3 50 s | none => false) &&
  (match b.description with | some s => joiString 3 500 s | none => true) &&
  joiParentRule b.isSubcategory b.parentCategoryId &&
  (match b.storeId with | some s => !(s == "") | none => false)

/-- The Joi schema of `updateCategory` (all catalog fields optional,
`storeId` still required). -/
def validUpdateCategoryBody (b : CategoryBody) : Bool :=
  (match b.name with | some s => joiString 3 50 s | none => true) &&
  (match b.description with | some s => joiString 3 500 s | none => true) &&
  joiParentRule b.isSubcategory b.parentCategoryId &&
  (match b.storeId with | some s => !(s == "") | none => false)

/-- `createCategory` from `categoryController.js`. `storeId` is
`req.store._id`, `file` is `req.file`, `newId` the id minted by the
database, `now` the `Date.now()` used for asset keys. -/
def createCategory (db : List Category) (b : CategoryBody) (storeId : Oid)
    (file : Option UploadedFile) (s3 : S3) (now : Nat) (newId : Oid) :
    Except String (List Category × Category) :=
  if !validCreateCategoryBody b then .error "validation error"
  else
    let nm := b.name.getD ""
    if db.any (fun c => c.name == nm && c.storeId == storeId) then
      .error "Category already exists in this store"
    else
      let parentCheck : Except String Unit :=
        match b.isSubcategory, b.parentCategoryId with
        | some true, some pid =>
          if pid == "" then .ok ()
          else if db.any (fun c => c.id == pid && c.storeId == storeId) then .ok ()
          else .error "Parent category not found in this store"
        | _, _ => .ok ()
      match parentCheck with
      | .error e => .error e
      | .ok () =>
        let imgRes : Except String (String × String) :=
          match file with
          | none => .ok ("", "")
          | some f =>
            match processAndUploadImageCategory s3 f "categories" now with
            | .ok p => .ok p
            | .error _ => .error "Error processing image"
        match imgRes with
        | .error e => .error e
        | .ok (image, thumbnail) =>
          let cat : Category :=
            { id := newId, name := nm, description := b.description,
              image := image, thumbnail := thumbnail,
              isSubcategory := b.isSubcategory.getD false,
              parentCategory := if b.isSubcategory.getD false then b.parentCategoryId else none,
              storeId := storeId }
          .ok (db ++ [cat], cat)

/-- `updateCategory` from `categoryController.js`. The saved record
replaces the old one in the list; every early `return res.status(...)`
is an `.error`. -/
def updateCategory (db : List Category) (catId : Oid) (b : CategoryBody) (storeId : Oid)
    (file : Option UploadedFile) (s3 : S3) (now : Nat) :
    Except String (List Category × Category) :=
  if !validUpdateCategoryBody b then .error "validation error"
  else
    match db.find? (fun c => c.id == catId && c.storeId == storeId) with
    | none => .error "Category not found in this store"
    | some cat0 =>
      -- if (name && name !== category.name) re-check uniqueness excluding self
      let step1 : Except String Category :=
        match b.name with
        | some n =>
          if n == "" then .ok cat0
          else if n == cat0.name then .ok cat0
          else if db.any (fun c => c.name == n && c.storeId == storeId && c.id != cat0.id) then
            .error "Category name already exists in this store"
          else .ok { cat0 with name := n }
        | none => .ok cat0
      match step1 with
      | .error e => .error e
      | .ok cat1 =>
        let cat2 := match b.description with
          | some d => if d == "" then cat1 else { cat1 with description := some d }
          | none => cat1
        let cat3 := match b.isSubcategory with
          | some v => { cat2 with isSubcategory := v }
          | none => cat2
        let step4 : Except String Category :=
          match b.isSubcategory, b.parentCategoryId with
          | some true, some pid =>
            if pid == "" then .ok cat3
            else if db.any (fun c => c.id == pid && c.storeId == storeId) then
              .ok { cat3 with parentCategory := some pid }
            else .error "Parent category not found in this store"
          | _, _ => .ok cat3
        match step4 with
        | .error e => .error e
        | .ok cat4 =>
          let step5 : Except String Category :=
            match file with
            | none => .ok cat4
            | some f =>
              -- the old-asset deletes and the new upload share one try/catch:
              -- any failure returns the image-processing error
              let delOld : Except String Unit :=
                match (if cat4.image == "" then .ok () else deleteFromS3 s3 (lastSeg cat4.image) : Except String Unit) with
                | .error _ => .error "Error processing image"
                | .ok () =>
                  match (if cat4.thumbnail == "" then .ok () else deleteFromS3 s3 (lastSeg cat4.thumbnail) : Except String Unit) with
                  | .error _ => .error "Error processing image"
                  | .ok () => .ok ()
              match delOld with
              | .error e => .error e
              | .ok () =>
                match processAndUploadImageCategory s3 f "categories" now with
                | .error _ => .error "Error processing image"
                | .ok (img, th) => .ok { cat4 with image := img, thumbnail := th }
          match step5 with
          | .error e => .error e
          | .ok cat5 =>
            .ok (db.map (fun c => if c.id == cat0.id then cat5 else c), cat5)

/-- Computation of a plain (non-subcategory, no image) create when the
store has no category of that name. -/
theorem createCategory_plain_ok (db : List Category) (N : String) (d : Option String)
    (sid : String) (S2 : Oid) (s3 : S3) (now : Nat) (newId : Oid)
    (hvalid : validCreateCategoryBody ⟨some N, d, none, none, some sid⟩ = true)
    (hany : (db.any fun c => c.name == N && c.storeId == S2) = false) :
    createCategory db ⟨some N, d, none, none, some sid⟩ S2 none s3 now newId
      = .ok (db ++ [⟨newId, N, d, "", "", false, none, S2⟩],
             ⟨newId, N, d, "", "", false, none, S2⟩) := by
  simp [createCategory, hvalid, hany]

/-- Computation of a create that hits the duplicate-name check. -/
theorem createCategory_conflict (db : List Category) (N : String) (d : Option String)
    (isSub : Option Bool) (pid : Option String) (bsid : Option String)
    (S2 : Oid) (file : Option UploadedFile) (s3 : S3) (now : Nat) (newId : Oid)
    (hvalid : validCreateCategoryBody ⟨some N, d, isSub, pid, bsid⟩ = true)
    (hany : (db.any fun c => c.name == N && c.storeId == S2) = true) :
    createCategory db ⟨some N, d, isSub, pid, bsid⟩ S2 file s3 now newId
      = .error "Category already exists in this store" := by
  simp [createCategory, hvalid, hany]

/-- C2: category-name uniqueness is tenant-scoped. With a category named
`N` present in store `S1` and none in store `S2`, creating `N` in `S2`
succeeds; re-creating `N` in `S2` afterwards is rejected as a duplicate;
and the duplicate decision reads only records of the target store. -/
theorem category_name_unique_tenant_scoped
    (db : List Category) (S1 S2 : Oid) (N : String) (d : Option String) (sid : String)
    (s3 : S3) (now : Nat) (id2 id3 : Oid)
    (hvalid : validCreateCategoryBody ⟨some N, d, none, none, some sid⟩ = true)
    (hS1 : ∃ c ∈ db, c.name = N ∧ c.storeId = S1)
    (hne : S1 ≠ S2)
    (hnoS2 : ¬ ∃ c ∈ db, c.name = N ∧ c.storeId = S2) :
    (∃ cat, createCategory db ⟨some N, d, none, none, some sid⟩ S2 none s3 now id2
        = .ok (db ++ [cat], cat) ∧ cat.name = N ∧ cat.storeId = S2) ∧
    (∀ cat, createCategory db ⟨some N, d, none, none, some sid⟩ S2 none s3 now id2
        = .ok (db ++ [cat], cat) →
      createCategory (db ++ [cat]) ⟨some N, d, none, none, some sid⟩ S2 none s3 now id3
        = .error "Category already exists in this store") ∧
    ((db.any fun c => c.name == N && c.storeId == S2)
        = ((db.filter fun c => c.storeId == S2).any fun c => c.name == N)) := by
  have hany : (db.any fun c => c.name == N && c.storeId == S2) = false := by
    rw [Bool.eq_false_iff]
    intro hc
    rcases List.any_eq_true.mp hc with ⟨c, hmem, hp⟩
    have hp' := (Bool.and_eq_true _ _).mp hp
    exact hnoS2 ⟨c, hmem, eq_of_beq hp'.1, eq_of_beq hp'.2⟩
  refine ⟨⟨⟨id2, N, d, "", "", false, none, S2⟩,
      createCategory_plain_ok db N d sid S2 s3 now id2 hvalid hany, rfl, rfl⟩,
    fun cat hcat => ?_, ?_⟩
  · have hcat0 := createCategory_plain_ok db N d sid S2 s3 now id2 hvalid hany
    rw [hcat0] at hcat
    have hceq : cat = ⟨id2, N, d, "", "", false, none, S2⟩ := by
      injection hcat with h1
      exact (Prod.mk.injEq _ _ _ _ ▸ h1 : _ ∧ _).2.symm ▸ rfl
    subst hceq
    refine createCategory_conflict _ N d none none (some sid) S2 none s3 now id3 hvalid ?_
    rw [List.any_append]
    simp
  · rw [List.any_filter]
    congr 1
    funext c
    exact Bool.and_comm _ _

/-- C2 witness instance: with "Shoes" already present in store `s1`, the
create in `s2` goes through, and re-creating "Shoes" in `s2` afterwards is
the duplicate error. -/
theorem category_name_unique_tenant_scoped_witness :
    createCategory
        ([⟨"c1", "Shoes", none, "", "", false, none, "s1"⟩] ++
          [⟨"c2", "Shoes", none, "", "", false, none, "s2"⟩])
        ⟨some "Shoes", none, none, none, some "s2"⟩ "s2" none ⟨fun _ => true, fun _ => true, "d"⟩ 0 "c3"
      = .error "Category already exists in this store" := by
  have h := category_name_unique_tenant_scoped
      [⟨"c1", "Shoes", none, "", "", false, none, "s1"⟩] "s1" "s2" "Shoes" none "s2"
      ⟨fun _ => true, fun _ => true, "d"⟩ 0 "c2" "c3" (by decide)
      ⟨⟨"c1", "Shoes", none, "", "", false, none, "s1"⟩, by simp, rfl, rfl⟩
      (by decide) (by decide)
  exact h.2.1 ⟨"c2", "Shoes", none, "", "", false, none, "s2"⟩ (by rfl)

/-- C9: updating a category that is currently a subcategory (non-null
parent) with `isSubcategory = false` flips the flag but leaves the stored
`parentCategory` reference untouched, so the record ends up a
non-subcategory that still points at a parent. -/
theorem updateCategory_unset_subcategory_keeps_parent
    (db : List Category) (catId storeId : Oid) (cat0 : Category) (p : Oid)
    (sid : String) (s3 : S3) (now : Nat)
    (hsid : sid ≠ "")
    (hfind : db.find? (fun c => c.id == catId && c.storeId == storeId) = some cat0)
    (hsub : cat0.isSubcategory = true)
    (hpar : cat0.parentCategory = some p) :
    updateCategory db catId ⟨none, none, some false, none, some sid⟩ storeId none s3 now
      = .ok (db.map (fun c => if c.id == cat0.id then { cat0 with isSubcategory := false } else c),
             { cat0 with isSubcategory := false }) ∧
    ({ cat0 with isSubcategory := false }).isSubcategory = false ∧
    ({ cat0 with isSubcategory := false }).parentCategory = some p := by
  have hsid' : (sid == "") = false := beq_eq_false_iff_ne.mpr hsid
  have hvb : validUpdateCategoryBody ⟨none, none, some false, none, some sid⟩ = true := by
    simp [validUpdateCategoryBody, joiParentRule, hsid']
  refine ⟨?_, rfl, by simp [hpar]⟩
  simp [updateCategory, hvb, hfind]

/-- C9 witness instance: a subcategory of `par1` updated with
`isSubcategory = false` keeps `parentCategory = par1`. -/
theorem updateCategory_unset_subcategory_keeps_parent_witness :
    updateCategory [⟨"c9", "Laces", none, "", "", true, some "par1", "s1"⟩] "c9"
        ⟨none, none, some false, none, some "s1"⟩ "s1" none ⟨fun _ => true, fun _ => true, "d"⟩ 3
      = .ok ([⟨"c9", "Laces", none, "", "", false, some "par1", "s1"⟩],
             ⟨"c9", "Laces", none, "", "", false, some "par1", "s1"⟩) := by
  have h := updateCategory_unset_subcategory_keeps_parent
      [⟨"c9", "Laces", none, "", "", true, some "par1", "s1"⟩] "c9" "s1"
      ⟨"c9", "Laces", none, "", "", true, some "par1", "s1"⟩ "par1" "s1"
      ⟨fun _ => true, fun _ => true, "d"⟩ 3 (by decide) (by rfl) rfl rfl
  simpa using h.1

/-- C6 counterexample: a category update that replaces the image while the
old asset deletion fails returns the image-processing error — the update
does not proceed to store the new image and save the record. -/
theorem updateCategory_old_delete_failure_aborts :
    updateCategory
        [⟨"c1", "Shoes", none, "https://d/categories/1_old.png",
          "https://d/categories/thumbnails/1_thumb_old.png", false, none, "s1"⟩]
        "c1" ⟨none, none, none, none, some "s1"⟩ "s1"
        (some ⟨"new.png"⟩) ⟨fun _ => true, fun _ => false, "d"⟩ 2
      = .error "Error processing image" := by
  rfl

/-- C6 (amended): replacing the image attempts to delete the previous
asset pair before storing the new one, but a failure to delete the old
assets aborts the update with the image-processing error (the same
handler as an upload failure) instead of proceeding; when the old
deletions and the new uploads all succeed, the update stores the new
pair and saves the record. -/
theorem updateCategory_replace_image
    (db : List Category) (catId storeId : Oid) (cat0 : Category)
    (sid : String) (f : UploadedFile) (s3 : S3) (now : Nat)
    (hsid : sid ≠ "")
    (hfind : db.find? (fun c => c.id == catId && c.storeId == storeId) = some cat0) :
    (cat0.image ≠ "" → s3.delOk (lastSeg cat0.image) = false →
      updateCategory db catId ⟨none, none, none, none, some sid⟩ storeId (some f) s3 now
        = .error "Error processing image") ∧
    (cat0.image ≠ "" → cat0.thumbnail ≠ "" →
     s3.delOk (lastSeg cat0.image) = true → s3.delOk (lastSeg cat0.thumbnail) = true →
     s3.putOk ("categories/" ++ toString now ++ "_" ++ sanitizeFilename f.originalname) = true →
     s3.putOk ("categories/thumbnails/" ++ toString now ++ "_thumb_" ++ sanitizeFilename f.originalname) = true →
      updateCategory db catId ⟨none, none, none, none, some sid⟩ storeId (some f) s3 now
        = .ok (db.map (fun c => if c.id == cat0.id then
                 { cat0 with
                   image := s3Url s3 ("categories/" ++ toString now ++ "_" ++ sanitizeFilename f.originalname),
                   thumbnail := s3Url s3 ("categories/thumbnails/" ++ toString now ++ "_thumb_" ++ sanitizeFilename f.originalname) }
               else c),
               { cat0 with
                 image := s3Url s3 ("categories/" ++ toString now ++ "_" ++ sanitizeFilename f.originalname),
                 thumbnail := s3Url s3 ("categories/thumbnails/" ++ toString now ++ "_thumb_" ++ sanitizeFilename f.originalname) })) := by
  have hsid' : (sid == "") = false := beq_eq_false_iff_ne.mpr hsid
  have hvb : validUpdateCategoryBody ⟨none, none, none, none, some sid⟩ = true := by
    simp [validUpdateCategoryBody, joiParentRule, hsid']
  constructor
  · intro himg hdel
    have himg' : (cat0.image == "") = false := beq_eq_false_iff_ne.mpr himg
    simp [updateCategory, hvb, hfind, himg', deleteFromS3, hdel]
  · intro himg hth hd1 hd2 hp1 hp2
    have himg' : (cat0.image == "") = false := beq_eq_false_iff_ne.mpr himg
    have hth' : (cat0.thumbnail == "") = false := beq_eq_false_iff_ne.mpr hth
    simp [updateCategory, hvb, hfind, himg', hth', deleteFromS3, hd1, hd2,
      processAndUploadImageCategory, uploadToS3, hp1, hp2]
    rfl

/-- C6 amended-theorem witness: with working deletes and uploads the
replacement goes through and stores the new pair. -/
theorem updateCategory_replace_image_witness :
    updateCategory
        [⟨"c1", "Shoes", none, "https://d/categories/1_old.png",
          "https://d/categories/thumbnails/1_thumb_old.png", false, none, "s1"⟩]
        "c1" ⟨none, none, none, none, some "s1"⟩ "s1"
        (some ⟨"new.png"⟩) ⟨fun _ => true, fun _ => true, "d"⟩ 2
      = .ok ([⟨"c1", "Shoes", none, "https://d/categories/2_new.png",
              "https://d/categories/thumbnails/2_thumb_new.png", false, none, "s1"⟩],
             ⟨"c1", "Shoes", none, "https://d/categories/2_new.png",
              "https://d/categories/thumbnails/2_thumb_new.png", false, none, "s1"⟩) := by
  have h := updateCategory_replace_image
      [⟨"c1", "Shoes", none, "https://d/categories/1_old.png",
        "https://d/categories/thumbnails/1_thumb_old.png", false, none, "s1"⟩]
      "c1" "s1"
      ⟨"c1", "Shoes", none, "https://d/categories/1_old.png",
        "https://d/categories/thumbnails/1_thumb_old.png", false, none, "s1"⟩
      "s1" ⟨"new.png"⟩ ⟨fun _ => true, fun _ => true, "d"⟩ 2 (by decide) (by rfl)
  have h2 := h.2 (by decide) (by decide) rfl rfl rfl rfl
  simpa [s3Url, sanitizeFilename] using h2

/-- C5 counterexample: under the store-logo preset the upload succeeds and
returns a single URL even in an object store where only the original key
can be stored at all, so no thumbnail object is persisted and no thumbnail
reference exists in the result. -/
theorem store_preset_stores_single_object :
    processAndUploadImageStore ⟨fun k => k == "stores/logos/5_logo.png", fun _ => true, "d"⟩
        ⟨"logo.png"⟩ "logo" 5 = .ok "https://d/stores/logos/5_logo.png" ∧
    S3.putOk ⟨fun k => k == "stores/logos/5_logo.png", fun _ => true, "d"⟩
        "stores/logos/thumbnails/5_thumb_logo.png" = false := by
  exact ⟨rfl, rfl⟩

/-- C5 (amended): under the category/product presets both the original and
the generated thumbnail are persisted as two objects under
timestamp-plus-sanitized-filename keys and references to both are
returned, and failing to store either object fails the operation; under
the store logo/banner presets only the original object is uploaded and a
single URL is returned. -/
theorem processAndUploadImage_asset_objects
    (s3 : S3) (f : UploadedFile) (pfx type sid : String) (now nowO nowT : Nat) :
    (s3.putOk (pfx ++ "/" ++ toString now ++ "_" ++ sanitizeFilename f.originalname) = true →
     s3.putOk (pfx ++ "/thumbnails/" ++ toString now ++ "_thumb_" ++ sanitizeFilename f.originalname) = true →
      processAndUploadImageCategory s3 f pfx now
        = .ok (s3Url s3 (pfx ++ "/" ++ toString now ++ "_" ++ sanitizeFilename f.originalname),
               s3Url s3 (pfx ++ "/thumbnails/" ++ toString now ++ "_thumb_" ++ sanitizeFilename f.originalname))) ∧
    (s3.putOk (pfx ++ "/" ++ toString now ++ "_" ++ sanitizeFilename f.originalname) = false →
      processAndUploadImageCategory s3 f pfx now = .error "upload failed") ∧
    (s3.putOk (pfx ++ "/" ++ toString now ++ "_" ++ sanitizeFilename f.originalname) = true →
     s3.putOk (pfx ++ "/thumbnails/" ++ toString now ++ "_thumb_" ++ sanitizeFilename f.originalname) = false →
      processAndUploadImageCategory s3 f pfx now = .error "upload failed") ∧
    (s3.putOk (pfx ++ "/" ++ sid ++ "/original/" ++ toString nowO ++ "_" ++ sanitizeFilename f.originalname) = true →
     s3.putOk (pfx ++ "/" ++ sid ++ "/thumbnails/" ++ toString nowT ++ "_thumb_" ++ sanitizeFilename f.originalname) = true →
      processAndUploadImageProduct s3 f sid pfx nowO nowT
        = .ok ⟨some (s3Url s3 (pfx ++ "/" ++ sid ++ "/original/" ++ toString nowO ++ "_" ++ sanitizeFilename f.originalname)),
               some (s3Url s3 (pfx ++ "/" ++ sid ++ "/thumbnails/" ++ toString nowT ++ "_thumb_" ++ sanitizeFilename f.originalname))⟩) ∧
    (s3.putOk ("stores/" ++ type ++ "s" ++ "/" ++ toString now ++ "_" ++ sanitizeFilename f.originalname) = true →
      processAndUploadImageStore s3 f type now
        = .ok (s3Url s3 ("stores/" ++ type ++ "s" ++ "/" ++ toString now ++ "_" ++ sanitizeFilename f.originalname))) := by
  refine ⟨fun h1 h2 => ?_, fun h1 => ?_, fun h1 h2 => ?_, fun h1 h2 => ?_, fun h1 => ?_⟩
  · simp only [processAndUploadImageCategory, uploadToS3, h1, h2, if_true]
    rfl
  · simp only [processAndUploadImageCategory, uploadToS3, h1, Bool.false_eq_true, if_false]
    rfl
  · simp only [processAndUploadImageCategory, uploadToS3, h1, h2, if_true,
      Bool.false_eq_true, if_false]
    rfl
  · simp only [processAndUploadImageProduct, uploadToS3, h1, h2, if_true]
    rfl
  · simp only [processAndUploadImageStore, uploadToS3, h1, if_true]

/-- C5 amended-theorem witness: a concrete upload with a whitespace-bearing
filename yields both references under sanitized keys. -/
theorem processAndUploadImage_asset_objects_witness :
    processAndUploadImageCategory ⟨fun _ => true, fun _ => true, "d"⟩ ⟨"a b.png"⟩ "categories" 7
      = .ok ("https://d/categories/7_ab.png", "https://d/categories/thumbnails/7_thumb_ab.png") := by
  have h := (processAndUploadImage_asset_objects ⟨fun _ => true, fun _ => true, "d"⟩
      ⟨"a b.png"⟩ "categories" "logo" "s1" 7 0 0).1 rfl rfl
  simpa [s3Url, sanitizeFilename] using h

/-! ## Product data model and operations -/

/-- One size entry of a color (`{name, quantity}`). JS numbers are
modelled as integers (the claims only involve integral values). -/
structure SizeEntry where
  name : String
  quantity : Int
deriving DecidableEq, Repr

/-- The value stored in `color.image`: either a processed
original+thumbnail pair, or the raw string the client sent when no
uploaded file matched the referenced filename. -/
inductive ColorImage where
  | pair (p : ImagePair)
  | raw (s : String)
deriving DecidableEq, Repr

/-- A stored color entry of a product. -/
structure ColorEntry where
  name : String
  image : Option ColorImage
  sizes : List SizeEntry
deriving DecidableEq, Repr

/-- A stored `Product` document (`src/models/Product.js`). -/
structure Product where
  id : Oid
  name : String
  description : String
  price : Int
  sku : String
  featured : Bool
  categories : List Oid
  images : List ImagePair
  colors : List ColorEntry
  storeId : Oid
deriving DecidableEq, Repr

/-- The request body of product create/update; absent fields are `none`.
`categories` and `colors` arrive as strings (comma-separated ids, JSON). -/
structure ProductBody where
  name : Option String
  description : Option String
  price : Option Int
  featured : Option Bool
  categories : Option String
  colors : Option String
  storeId : Option String
deriving DecidableEq, Repr

/-- A color object of the create payload after JSON parsing, as
constrained by the create-side Joi colors schema (image is a filename
reference string). -/
structure ColorIn where
  name : String
  image : Option String
  sizes : List SizeEntry
deriving DecidableEq, Repr

/-- The Joi schema of `createProduct` (name, description, price,
categories, colors, storeId all required). -/
def validCreateProductBody (b : ProductBody) : Bool :=
  (match b.name with | some s => joiString 3 100 s | none => false) &&
  (match b.description with | some s => joiString 3 500 s | none => false) &&
  (match b.price with | some v => decide (0 ≤ v) | none => false) &&
  (match b.categories with | some s => !(jsTrim s == "") | none => false) &&
  (match b.colors with | some s => !(jsTrim s == "") | none => false) &&
  (match b.storeId with | some s => !(jsTrim s == "") | none => false)

/-- The Joi schema of `updateProduct` (every field optional). A present
string field must still be a nonempty string after trimming — Joi
rejects the empty string. -/
def validUpdateProductBody (b : ProductBody) : Bool :=
  (match b.name with | some s => joiString 3 100 s | none => true) &&
  (match b.description with | some s => joiString 3 500 s | none => true) &&
  (match b.price with | some v => decide (0 ≤ v) | none => true) &&
  (match b.categories with | some s => !(jsTrim s == "") | none => true) &&
  (match b.colors with | some s => !(jsTrim s == "") | none => true) &&
  (match b.storeId with | some s => !(jsTrim s == "") | none => true)

/-- The per-color validation of the create-side colors schema. -/
def validColorIn (c : ColorIn) : Bool :=
  !(jsTrim c.name == "") &&
  (match c.image with | some s => !(jsTrim s == "") | none => true) &&
  c.sizes.all (fun sz => !(jsTrim sz.name == "") && decide (0 ≤ sz.quantity))

def hexChar (c : Char) : Bool :=
  c.isDigit || ('a' ≤ c && c ≤ 'f') || ('A' ≤ c && c ≤ 'F')

def is24Hex (s : String) : Bool :=
  s.length == 24 && s.data.all hexChar

/-- `ObjectId.isValid` of the mongodb driver: a 24-character hex string,
or any 12-character string (12-byte buffer semantics). -/
def isValidObjectId (s : String) : Bool :=
  s.length == 12 || is24Hex s

/-- JS `toLowerCase` over ASCII. -/
def jsToLowerCase (s : String) : String :=
  String.mk (s.data.map Char.toLower)

/-- JS `toUpperCase` over ASCII. -/
def jsToUpperCase (s : String) : String :=
  String.mk (s.data.map Char.toUpper)

/-- `categories.split(',').filter(isValidObjectId).map(ObjectId.createFromHexString)`:
`createFromHexString` needs 24 hex characters and throws otherwise
(reaching the surrounding catch); a parsed ObjectId prints as lowercase
hex, which is how it is compared against stored ids. -/
def parseObjectIds (categories : String) : Except String (List Oid) :=
  let valid := (jsSplit ',' categories).filter isValidObjectId
  if valid.all is24Hex then .ok (valid.map jsToLowerCase) else .error "Server error"

/-- `storeId.toString().substr(-4)`: the last (up to) four characters. -/
def lastChars (n : Nat) (s : String) : String :=
  String.mk (s.data.drop (s.data.length - n))

/-- `generateSKU` from `createProduct`: note the literal first component
is `LABEL-`, and the whole string is upper-cased. `randomPart` stands for
`Math.random().toString(36).substring(2, 6)`. -/
def generateSKU (storeId : Oid) (randomPart : String) : String :=
  jsToUpperCase ("LABEL-" ++ lastChars 4 storeId ++ "-" ++ randomPart)

/-- Processing of one color of the create payload: a truthy image
reference naming an uploaded file gets a processed pair under the
`products/colors` path; otherwise the color is kept unchanged. -/
def processColor (s3 : S3) (files : List UploadedFile) (storeId : Oid) (nowO nowT : Nat)
    (c : ColorIn) : Except String ColorEntry :=
  match c.image with
  | some imgName =>
    if imgName == "" then .ok ⟨c.name, some (.raw imgName), c.sizes⟩
    else
      match files.find? (fun f => f.originalname == imgName) with
      | some f =>
        match processAndUploadImageProduct s3 f storeId "products/colors" nowO nowT with
        | .ok p => .ok ⟨c.name, some (.pair p), c.sizes⟩
        | .error e => .error e
      | none => .ok ⟨c.name, some (.raw imgName), c.sizes⟩
  | none => .ok ⟨c.name, none, c.sizes⟩

/-- `createProduct` from `productController.js`. `parseColors` abstracts
`JSON.parse` of the colors payload (`none` is a parse failure); `rand`
is the random SKU part; `newId` the minted id. -/
def createProduct (pdb : List Product) (catdb : List Category) (b : ProductBody)
    (storeId : Oid) (files : List UploadedFile)
    (parseColors : String → Option (List ColorIn)) (s3 : S3) (nowO nowT : Nat)
    (rand : String) (newId : Oid) : Except String (List Product × Product) :=
  if !validCreateProductBody b then .error "validation error"
  else
    match parseColors (b.colors.getD "") with
    | none => .error "Invalid colors data"
    | some parsedColors =>
      if !(parsedColors.all validColorIn) then .error "colors validation error"
      else
        match parseObjectIds (b.categories.getD "") with
        | .error e => .error e
        | .ok categoryIds =>
          let storeCategories := catdb.filter fun c =>
            categoryIds.contains c.id && c.storeId == storeId
          if storeCategories.length != categoryIds.length then
            .error "One or more categories not found in this store"
          else
            let sku := generateSKU storeId rand
            match files.mapM (fun f =>
                processAndUploadImageProduct s3 f storeId "products" nowO nowT) with
            | .error _ => .error "Server error"
            | .ok productImages =>
              match parsedColors.mapM (processColor s3 files storeId nowO nowT) with
              | .error _ => .error "Server error"
              | .ok processedColors =>
                let product : Product :=
                  { id := newId, name := b.name.getD "", description := b.description.getD "",
                    price := b.price.getD 0, sku := sku, featured := b.featured.getD false,
                    categories := categoryIds, images := productImages,
                    colors := processedColors, storeId := storeId }
                .ok (pdb ++ [product], product)

/-- `updateProduct` from `productController.js`. `parseColorsU` abstracts
`JSON.parse` for the update payload, whose parsed colors are assigned to
the document unvalidated. Truthiness guards: a supplied empty-string
name/description and a supplied price of 0 are skipped. -/
def updateProduct (pdb : List Product) (catdb : List Category) (pid : Oid) (b : ProductBody)
    (storeId : Oid) (files : List UploadedFile)
    (parseColorsU : String → Option (List ColorEntry)) (s3 : S3) (nowO nowT : Nat) :
    Except String (List Product × Product) :=
  if !validUpdateProductBody b then .error "validation error"
  else
    let parsedColorsRes : Except String (Option (List ColorEntry)) :=
      match b.colors with
      | some cs =>
        match parseColorsU cs with
        | none => .error "Invalid colors data"
        | some l => .ok (some l)
      | none => .ok none
    match parsedColorsRes with
    | .error e => .error e
    | .ok parsedColors =>
      match pdb.find? (fun p => p.id == pid && p.storeId == storeId) with
      | none => .error "Product not found in this store"
      | some p0 =>
        let p1 := match b.name with
          | some n => if n == "" then p0 else { p0 with name := n }
          | none => p0
        let p2 := match b.description with
          | some d => if d == "" then p1 else { p1 with description := d }
          | none => p1
        let p3 := match b.price with
          | some v => if v == 0 then p2 else { p2 with price := v }
          | none => p2
        let p4 := match b.featured with
          | some v => { p3 with featured := v }
          | none => p3
        let step5 : Except String Product :=
          match b.categories with
          | some cs =>
            match parseObjectIds cs with
            | .error e => .error e
            | .ok categoryIds =>
              let storeCategories := catdb.filter fun c =>
                categoryIds.contains c.id && c.storeId == storeId
              if storeCategories.length != categoryIds.length then
                .error "One or more categories not found in this store"
              else .ok { p4 with categories := categoryIds }
          | none => .ok p4
        match step5 with
        | .error e => .error e
        | .ok p5 =>
          let p6 := match parsedColors with
            | some l => { p5 with colors := l }
            | none => p5
          match files.mapM (fun f =>
              processAndUploadImageProduct s3 f storeId "products" nowO nowT) with
          | .error _ => .error "Server error"
          | .ok newImages =>
            let p7 := { p6 with images := p6.images ++ newImages }
            .ok (pdb.map (fun q => if q.id == p0.id then p7 else q), p7)

/-- Truthiness-guarded single-key deletion of `deleteProduct`: an absent
or empty URL is skipped (counts as fine), otherwise the object under the
last path segment is deleted. -/
def keyDeleteOk (s3 : S3) : Option String → Bool
  | some url => url == "" || s3.delOk (lastSeg url)
  | none => true

/-- Whether a whole pair deletes cleanly; on any failure the pair as a
whole is recorded once (the JS try/catch wraps both deletes). -/
def pairDeleteOk (s3 : S3) (img : ImagePair) : Bool :=
  keyDeleteOk s3 img.original && keyDeleteOk s3 img.thumbnail

/-- The `failedImageDeletions` array accumulated by `deleteProduct`:
first the failing top-level pairs in order, then the failing per-color
pairs (a raw-string color image has no `.original`/`.thumbnail`, so
nothing is attempted for it). -/
def failedImageDeletions (s3 : S3) (p : Product) : List ImagePair :=
  (p.images.filter fun img => !(pairDeleteOk s3 img)) ++
  (p.colors.filterMap fun c =>
    match c.image with
    | some (.pair q) => if pairDeleteOk s3 q then none else some q
    | _ => none)

/-- `deleteProduct` from `productController.js`: best-effort deletion of
every image pair, then unconditional removal of the record; the response
carries the collected failures. -/
def deleteProduct (s3 : S3) (pdb : List Product) (pid storeId : Oid) :
    Except String (List Product × List ImagePair) :=
  match pdb.find? (fun p => p.id == pid && p.storeId == storeId) with
  | none => .error "Product not found in this store"
  | some p =>
    .ok (pdb.eraseP (fun q => q.id == pid), failedImageDeletions s3 p)

/-- C4: deleting a product removes the record for every object-store
behaviour (in particular when every blob deletion fails); the failure
list contains every failing top-level pair and every failing per-color
pair, and only failing pairs. -/
theorem deleteProduct_removes_record_reports_failures
    (s3 : S3) (pdb : List Product) (pid storeId : Oid) (p : Product)
    (hfind : pdb.find? (fun q => q.id == pid && q.storeId == storeId) = some p) :
    deleteProduct s3 pdb pid storeId
      = .ok (pdb.eraseP (fun q => q.id == pid), failedImageDeletions s3 p) ∧
    (∀ img ∈ p.images, pairDeleteOk s3 img = false →
      img ∈ failedImageDeletions s3 p) ∧
    (∀ c ∈ p.colors, ∀ q, c.image = some (.pair q) → pairDeleteOk s3 q = false →
      q ∈ failedImageDeletions s3 p) ∧
    (∀ img ∈ failedImageDeletions s3 p, pairDeleteOk s3 img = false) := by
  refine ⟨by simp [deleteProduct, hfind], fun img hmem hfail => ?_,
    fun c hmem q himg hfail => ?_, fun img hmem => ?_⟩
  · exact List.mem_append_left _ (List.mem_filter.mpr ⟨hmem, by simp [hfail]⟩)
  · refine List.mem_append_right _ (List.mem_filterMap.mpr ⟨c, hmem, ?_⟩)
    simp [himg, hfail]
  · rcases List.mem_append.mp hmem with h | h
    · have := (List.mem_filter.mp h).2
      simpa using this
    · rcases List.mem_filterMap.mp h with ⟨c, _, hc⟩
      rcases hcase : c.image with _ | ci
      · rw [hcase] at hc; simp at hc
      · rcases ci with q | s
        · rw [hcase] at hc
          by_cases hq : pairDeleteOk s3 q = true
          · simp [hq] at hc
          · have hq' : pairDeleteOk s3 q = false := by
              cases hb : pairDeleteOk s3 q
              · rfl
              · exact absurd hb hq
            simp only [hq', if_false] at hc
            cases hc
            exact hq'
        · rw [hcase] at hc; simp at hc

/-- C4 witness instance: a product whose single image pair and single
color pair both fail to delete is still removed, and both pairs are
reported. -/
theorem deleteProduct_removes_record_reports_failures_witness :
    deleteProduct ⟨fun _ => true, fun _ => false, "d"⟩
        [⟨"p1", "Widget", "w", 5, "LABEL-1-A", false, [], [⟨some "https://d/products/s1/original/1_a.png", some "https://d/products/s1/thumbnails/1_thumb_a.png"⟩],
          [⟨"red", some (.pair ⟨some "https://d/products/colors/s1/original/1_r.png", some "https://d/products/colors/s1/thumbnails/1_thumb_r.png"⟩), []⟩], "s1"⟩]
        "p1" "s1"
      = .ok ([],
          [⟨some "https://d/products/s1/original/1_a.png", some "https://d/products/s1/thumbnails/1_thumb_a.png"⟩,
           ⟨some "https://d/products/colors/s1/original/1_r.png", some "https://d/products/colors/s1/thumbnails/1_thumb_r.png"⟩]) := by
  have h := (deleteProduct_removes_record_reports_failures ⟨fun _ => true, fun _ => false, "d"⟩
      [⟨"p1", "Widget", "w", 5, "LABEL-1-A", false, [], [⟨some "https://d/products/s1/original/1_a.png", some "https://d/products/s1/thumbnails/1_thumb_a.png"⟩],
        [⟨"red", some (.pair ⟨some "https://d/products/colors/s1/original/1_r.png", some "https://d/products/colors/s1/thumbnails/1_thumb_r.png"⟩), []⟩], "s1"⟩]
      "p1" "s1"
      ⟨"p1", "Widget", "w", 5, "LABEL-1-A", false, [], [⟨some "https://d/products/s1/original/1_a.png", some "https://d/products/s1/thumbnails/1_thumb_a.png"⟩],
        [⟨"red", some (.pair ⟨some "https://d/products/colors/s1/original/1_r.png", some "https://d/products/colors/s1/thumbnails/1_thumb_r.png"⟩), []⟩], "s1"⟩
      (by rfl)).1
  simpa [failedImageDeletions, pairDeleteOk, keyDeleteOk] using h

/-- C7 counterexample: at a concrete store id and random part the
generated SKU is `LABEL-3A4B-AB3X`; it does not start with `SKU-`. -/
theorem generateSKU_starts_with_LABEL :
    generateSKU "64a1b2c3d4e5f60718293a4b" "ab3x" = "LABEL-3A4B-AB3X" ∧
    (generateSKU "64a1b2c3d4e5f60718293a4b" "ab3x").data.take 4 ≠ ['S', 'K', 'U', '-'] := by
  exact ⟨rfl, by decide⟩

/-- C7 (amended): every server-generated SKU has the form
`LABEL-<last4 of storeId, upper-cased>-<random part, upper-cased>` (the
literal first component is `LABEL-`, not `SKU-`), and a successfully
created product carries exactly the single `generateSKU` output — no
retry on collision is performed. -/
theorem generateSKU_form (sid r : String) :
    generateSKU sid r
      = "LABEL-" ++ jsToUpperCase (lastChars 4 sid) ++ "-" ++ jsToUpperCase r ∧
    (∀ (pdb : List Product) (catdb : List Category) (b : ProductBody) (storeId : Oid)
       (files : List UploadedFile) (pc : String → Option (List ColorIn)) (s3 : S3)
       (nowO nowT : Nat) (rand : String) (newId : Oid) (db' : List Product) (prod : Product),
      createProduct pdb catdb b storeId files pc s3 nowO nowT rand newId = .ok (db', prod) →
      prod.sku = generateSKU storeId rand) := by
  constructor
  · have h1 : "LABEL-".data.map Char.toUpper = "LABEL-".data := by decide
    have h2 : "-".data.map Char.toUpper = "-".data := by decide
    apply String.ext
    show (("LABEL-" ++ lastChars 4 sid ++ "-" ++ r).data.map Char.toUpper) = _
    simp [jsToUpperCase, String.data_append, List.map_append, h1, h2]
  · intro pdb catdb b storeId files pc s3 nowO nowT rand newId db' prod hok
    simp only [createProduct] at hok
    split at hok
    · exact Except.noConfusion hok
    · split at hok
      · exact Except.noConfusion hok
      · split at hok
        · exact Except.noConfusion hok
        · split at hok
          · exact Except.noConfusion hok
          · split at hok
            · exact Except.noConfusion hok
            · split at hok
              · exact Except.noConfusion hok
              · split at hok
                · exact Except.noConfusion hok
                · rw [Except.ok.injEq, Prod.mk.injEq] at hok
                  rw [← hok.2]

/-- C7 amended-theorem witness: a concrete successful create yields a
product whose stored sku is the single generated value. -/
theorem generateSKU_form_witness :
    (⟨"p9", "Widget", "A fine widget", 5, "LABEL-S1-AB3X", false,
      ["aaaaaaaaaaaaaaaaaaaaaaaa"], [], [], "s1"⟩ : Product).sku
      = generateSKU "s1" "ab3x" := by
  exact (generateSKU_form "s1" "ab3x").2 []
    [⟨"aaaaaaaaaaaaaaaaaaaaaaaa", "Shoes", none, "", "", false, none, "s1"⟩]
    ⟨some "Widget", some "A fine widget", some 5, none,
      some "aaaaaaaaaaaaaaaaaaaaaaaa", some "[]", some "s1"⟩
    "s1" [] (fun _ => some []) ⟨fun _ => true, fun _ => true, "d"⟩ 0 0 "ab3x" "p9"
    [⟨"p9", "Widget", "A fine widget", 5, "LABEL-S1-AB3X", false,
      ["aaaaaaaaaaaaaaaaaaaaaaaa"], [], [], "s1"⟩]
    ⟨"p9", "Widget", "A fine widget", 5, "LABEL-S1-AB3X", false,
      ["aaaaaaaaaaaaaaaaaaaaaaaa"], [], [], "s1"⟩
    (by rfl)

/-- If some requested id resolves to no category of the store, the count
of resolved in-store categories falls short of the requested count
(requested ids and stored ids assumed duplicate-free). -/
theorem storeCategories_length_ne (catdb : List Category) (ids : List Oid) (storeId : Oid)
    (hnodup : ids.Nodup) (hdbnodup : (catdb.map Category.id).Nodup)
    (hbad : ∃ i ∈ ids, ¬ ∃ c ∈ catdb, c.id = i ∧ c.storeId = storeId) :
    (catdb.filter fun c => decide (c.id ∈ ids) && c.storeId == storeId).length ≠ ids.length := by
  rcases hbad with ⟨i0, hi0, hnone⟩
  have hFsub : List.Sublist (catdb.filter fun c => decide (c.id ∈ ids) && c.storeId == storeId)
      catdb := List.filter_sublist _
  have hFid : ((catdb.filter fun c => decide (c.id ∈ ids) && c.storeId == storeId).map
      Category.id).Nodup := hdbnodup.sublist (hFsub.map Category.id)
  have hsubset : ((catdb.filter fun c => decide (c.id ∈ ids) && c.storeId == storeId).map
      Category.id) ⊆ ids.erase i0 := by
    intro x hx
    rcases List.mem_map.mp hx with ⟨c, hcF, rfl⟩
    have hc := List.mem_filter.mp hcF
    have hc2 := (Bool.and_eq_true _ _).mp hc.2
    have hcid : c.id ∈ ids := of_decide_eq_true hc2.1
    have hsid : c.storeId = storeId := eq_of_beq hc2.2
    have hne : c.id ≠ i0 := fun h => hnone ⟨c, hc.1, h, hsid⟩
    exact (List.mem_erase_of_ne hne).mpr hcid
  have hlen := (List.subperm_of_subset hFid hsubset).length_le
  have herase : (ids.erase i0).length = ids.length - 1 := List.length_erase_of_mem hi0
  have hpos : 0 < ids.length := List.length_pos.mpr (List.ne_nil_of_mem hi0)
  rw [List.length_map, herase] at hlen
  omega

/-- C3 counterexample: an update supplying the categories list `zzz` — a
string that is not a valid ObjectId and resolves to nothing — is not
rejected: the malformed id is silently dropped by the filter, the count
check compares 0 against 0, and the update succeeds, replacing the
stored category set with the empty list. -/
theorem updateProduct_malformed_category_id_accepted :
    updateProduct
        [⟨"p3", "Widget", "w", 10, "LABEL-1", false, ["aaaaaaaaaaaaaaaaaaaaaaaa"], [], [], "s1"⟩]
        [] "p3" ⟨none, none, none, none, some "zzz", none, none⟩ "s1" []
        (fun _ => none) ⟨fun _ => true, fun _ => true, "d"⟩ 0 0
      = .ok ([⟨"p3", "Widget", "w", 10, "LABEL-1", false, [], [], [], "s1"⟩],
             ⟨"p3", "Widget", "w", 10, "LABEL-1", false, [], [], [], "s1"⟩) := by
  rfl

/-- C3 (amended): the supplied category ids are first filtered to
syntactically valid ObjectIds, silently dropping malformed entries; every
remaining id must resolve to a category owned by the requesting store,
and when any fails to resolve (nonexistent or belonging to another
store) both the create and the update are rejected with the categories
error, leaving the data unchanged — one count comparison detects both
cases for well-formed ids. -/
theorem product_category_ids_must_resolve
    (pdb : List Product) (catdb : List Category) (b : ProductBody) (storeId pid : Oid)
    (files : List UploadedFile) (pc : String → Option (List ColorIn))
    (pcU : String → Option (List ColorEntry)) (s3 : S3) (nowO nowT : Nat)
    (rand : String) (newId : Oid) (cs : String) (ids : List Oid) (cl : List ColorIn)
    (hcs : b.categories = some cs)
    (hids : parseObjectIds cs = .ok ids)
    (hnodup : ids.Nodup) (hdbnodup : (catdb.map Category.id).Nodup)
    (hbad : ∃ i ∈ ids, ¬ ∃ c ∈ catdb, c.id = i ∧ c.storeId = storeId) :
    (validCreateProductBody b = true →
     pc (b.colors.getD "") = some cl → cl.all validColorIn = true →
      createProduct pdb catdb b storeId files pc s3 nowO nowT rand newId
        = .error "One or more categories not found in this store") ∧
    (validUpdateProductBody b = true → b.colors = none →
     ∀ p0, pdb.find? (fun p => p.id == pid && p.storeId == storeId) = some p0 →
      updateProduct pdb catdb pid b storeId files pcU s3 nowO nowT
        = .error "One or more categories not found in this store") := by
  have hlen := storeCategories_length_ne catdb ids storeId hnodup hdbnodup hbad
  constructor
  · intro hv hpc hcl
    simp [createProduct, hv, hpc, hcl, hcs, hids]
    intro h
    exact absurd h hlen
  · intro hv hnocolors p0 hfind
    simp [updateProduct, hv, hnocolors, hfind, hcs, hids]
    rw [if_neg hlen]

/-- C3 amended-theorem witness: an update naming a well-formed but
nonexistent category id is rejected. -/
theorem product_category_ids_must_resolve_witness :
    updateProduct [⟨"p3", "Widget", "w", 10, "LABEL-1", false, [], [], [], "s1"⟩] []
        "p3" ⟨none, none, none, none, some "aaaaaaaaaaaaaaaaaaaaaaaa", none, none⟩ "s1" []
        (fun _ => none) ⟨fun _ => true, fun _ => true, "d"⟩ 0 0
      = .error "One or more categories not found in this store" := by
  exact (product_category_ids_must_resolve
      [⟨"p3", "Widget", "w", 10, "LABEL-1", false, [], [], [], "s1"⟩] []
      ⟨none, none, none, none, some "aaaaaaaaaaaaaaaaaaaaaaaa", none, none⟩ "s1" "p3"
      [] (fun _ => some []) (fun _ => none) ⟨fun _ => true, fun _ => true, "d"⟩ 0 0
      "r" "pX" "aaaaaaaaaaaaaaaaaaaaaaaa" ["aaaaaaaaaaaaaaaaaaaaaaaa"] []
      rfl rfl (by simp) (by simp)
      ⟨"aaaaaaaaaaaaaaaaaaaaaaaa", by simp, by simp⟩).2 rfl rfl
    ⟨"p3", "Widget", "w", 10, "LABEL-1", false, [], [], [], "s1"⟩ (by rfl)

/-- C10 (amended): a supplied price of 0 passes the update validation but
the truthiness guard skips it, so the update succeeds with the stored
product (price included) unchanged; 0 is likewise accepted by the create
validation. A supplied empty-string name or description, by contrast, is
rejected by the update validation schema (Joi forbids empty strings), so
such an update fails instead of silently skipping the field. -/
theorem updateProduct_price_zero_skipped_empty_strings_rejected
    (pdb : List Product) (catdb : List Category) (pid storeId : Oid) (p0 : Product)
    (files : List UploadedFile) (pcU : String → Option (List ColorEntry)) (s3 : S3)
    (nowO nowT : Nat)
    (hfind : pdb.find? (fun p => p.id == pid && p.storeId == storeId) = some p0) :
    validUpdateProductBody ⟨none, none, some 0, none, none, none, none⟩ = true ∧
    updateProduct pdb catdb pid ⟨none, none, some 0, none, none, none, none⟩ storeId []
        pcU s3 nowO nowT
      = .ok (pdb.map (fun q => if q.id == p0.id then p0 else q), p0) ∧
    validCreateProductBody ⟨some "Widget", some "A fine widget", some 0, none,
        some "aaaaaaaaaaaaaaaaaaaaaaaa", some "[]", some "s1"⟩ = true ∧
    updateProduct pdb catdb pid ⟨some "", none, none, none, none, none, none⟩ storeId files
        pcU s3 nowO nowT = .error "validation error" ∧
    updateProduct pdb catdb pid ⟨none, some "", none, none, none, none, none⟩ storeId files
        pcU s3 nowO nowT = .error "validation error" := by
  refine ⟨by rfl, ?_, by rfl, by rfl, by rfl⟩
  have hv : validUpdateProductBody ⟨none, none, some 0, none, none, none, none⟩ = true := rfl
  simp [updateProduct, hv, hfind]
  have hloop : (List.mapM.loop (fun f => processAndUploadImageProduct s3 f storeId "products" nowO nowT)
      ([] : List UploadedFile) [] : Except String (List ImagePair)) = .ok [] := rfl
  rw [hloop]
  simp [List.append_nil]

/-- C10 counterexample: an update supplying the empty-string name is
rejected by the validation schema — it does not pass validation and the
update does not succeed. -/
theorem updateProduct_empty_name_fails_validation :
    updateProduct [⟨"p0", "Widget", "w", 7, "LABEL-X", false, [], [], [], "s1"⟩] []
        "p0" ⟨some "", none, none, none, none, none, none⟩ "s1" []
        (fun _ => none) ⟨fun _ => true, fun _ => true, "d"⟩ 0 0
      = .error "validation error" := by
  rfl

/-- C10 amended-theorem witness: a concrete price-0 update succeeds and
returns the product unchanged. -/
theorem updateProduct_price_zero_skipped_witness :
    updateProduct [⟨"p0", "Widget", "w", 7, "LABEL-X", false, [], [], [], "s1"⟩] []
        "p0" ⟨none, none, some 0, none, none, none, none⟩ "s1" []
        (fun _ => none) ⟨fun _ => true, fun _ => true, "d"⟩ 0 0
      = .ok ([⟨"p0", "Widget", "w", 7, "LABEL-X", false, [], [], [], "s1"⟩],
             ⟨"p0", "Widget", "w", 7, "LABEL-X", false, [], [], [], "s1"⟩) := by
  have h := (updateProduct_price_zero_skipped_empty_strings_rejected
      [⟨"p0", "Widget", "w", 7, "LABEL-X", false, [], [], [], "s1"⟩] [] "p0" "s1"
      ⟨"p0", "Widget", "w", 7, "LABEL-X", false, [], [], [], "s1"⟩ []
      (fun _ => none) ⟨fun _ => true, fun _ => true, "d"⟩ 0 0 (by rfl)).2.1
  simpa using h

/-! ## Store slug derivation -/

/-- Membership in the character class `[a-zA-Z0-9]` of the slug regex. -/
def slugAlnum (c : Char) : Bool :=
  ('a' ≤ c && c ≤ 'z') || ('A' ≤ c && c ≤ 'Z') || ('0' ≤ c && c ≤ '9')

/-- `replace(/[^a-zA-Z0-9]/g, '-')`, one character at a time. -/
def slugChar (c : Char) : Char :=
  if slugAlnum c then c else '-'

/-- The hyphen-run replacement: each maximal run of hyphens becomes a
single hyphen. -/
def collapseHyphens : List Char → List Char
  | [] => []
  | [c] => [c]
  | a :: b :: r =>
    if a == '-' && b == '-' then collapseHyphens (b :: r)
    else a :: collapseHyphens (b :: r)

/-- The trailing half of `replace(/^-+|-+$/g, '')`. -/
def trimTrailHyphens : List Char → List Char
  | [] => []
  | c :: r =>
    match trimTrailHyphens r with
    | [] => if c == '-' then [] else [c]
    | r' => c :: r'

/-- The slug derivation of `createStore` (`src/unnamed/part_000`) and the
Store pre-save hook (`src/unnamed/part_006`): lowercase, non-alphanumeric
characters to hyphens, hyphen runs collapsed, leading and trailing
hyphens removed. `Char.toLower` models the JS `toLowerCase` over the
ASCII range; outside it both versions map the character to a hyphen. -/
def slugify (s : String) : String :=
  String.mk (trimTrailHyphens
    ((collapseHyphens ((jsToLowerCase s).data.map slugChar)).dropWhile fun c => c == '-'))

/-- The same derivation as one list-level pass. -/
def slugCore (l : List Char) : List Char :=
  trimTrailHyphens
    ((collapseHyphens (l.map fun c => slugChar c.toLower)).dropWhile fun c => c == '-')

theorem slugify_eq_core (s : String) : slugify s = String.mk (slugCore s.data) := by
  simp [slugify, slugCore, jsToLowerCase, List.map_map]
  rfl

/-- No two adjacent hyphens. -/
def noAdjHyphens : List Char → Bool
  | [] => true
  | [_] => true
  | a :: b :: r => !(a == '-' && b == '-') && noAdjHyphens (b :: r)

theorem toNat_ofNat_valid (n : Nat) (h : n < 55296) : (Char.ofNat n).toNat = n := by
  unfold Char.ofNat
  rw [dif_pos (Or.inl h)]
  rfl

theorem toLower_toLower (c : Char) : c.toLower.toLower = c.toLower := by
  simp only [Char.toLower]
  by_cases h : c.toNat ≥ 65 ∧ c.toNat ≤ 90
  · rw [if_pos h]
    have h32 : (Char.ofNat (c.toNat + 32)).toNat = c.toNat + 32 :=
      toNat_ofNat_valid _ (by omega)
    rw [if_neg (by rw [h32]; omega)]
  · rw [if_neg h, if_neg h]

/-- The per-character slug step is idempotent. -/
theorem slugChar_toLower_idem (c : Char) :
    slugChar (slugChar c.toLower).toLower = slugChar c.toLower := by
  by_cases h : slugAlnum c.toLower = true
  · have hfix : slugChar c.toLower = c.toLower := if_pos h
    rw [hfix, toLower_toLower, hfix]
  · have hdash : slugChar c.toLower = '-' := if_neg h
    rw [hdash]
    decide

theorem mem_collapseHyphens : ∀ (l : List Char) (x : Char),
    x ∈ collapseHyphens l → x ∈ l
  | [], _, h => by simpa [collapseHyphens] using h
  | [c], _, h => by simpa [collapseHyphens] using h
  | a :: b :: r, x, h => by
    rw [collapseHyphens] at h
    by_cases hab : (a == '-' && b == '-') = true
    · rw [if_pos hab] at h
      exact List.mem_cons_of_mem _ (mem_collapseHyphens (b :: r) x h)
    · rw [if_neg hab] at h
      rcases List.mem_cons.mp h with rfl | h'
      · exact List.mem_cons_self _ _
      · exact List.mem_cons_of_mem _ (mem_collapseHyphens (b :: r) x h')

theorem head?_collapseHyphens : ∀ (a : Char) (l : List Char),
    (collapseHyphens (a :: l)).head? = some a
  | _, [] => rfl
  | a, b :: r => by
    rw [collapseHyphens]
    by_cases hab : (a == '-' && b == '-') = true
    · rw [if_pos hab]
      have hb := head?_collapseHyphens b r
      have h2 := (Bool.and_eq_true _ _).mp hab
      rw [hb, eq_of_beq h2.1, eq_of_beq h2.2]
    · rw [if_neg hab]
      rfl

theorem noAdj_tail (a : Char) (l : List Char)
    (h : noAdjHyphens (a :: l) = true) : noAdjHyphens l = true := by
  cases l with
  | nil => rfl
  | cons b r => exact ((Bool.and_eq_true _ _).mp h).2

theorem noAdj_collapseHyphens : ∀ l : List Char,
    noAdjHyphens (collapseHyphens l) = true
  | [] => rfl
  | [_] => rfl
  | a :: b :: r => by
    rw [collapseHyphens]
    by_cases hab : (a == '-' && b == '-') = true
    · rw [if_pos hab]
      exact noAdj_collapseHyphens (b :: r)
    · rw [if_neg hab]
      have hmain := noAdj_collapseHyphens (b :: r)
      have hhead := head?_collapseHyphens b r
      rcases hcb : collapseHyphens (b :: r) with _ | ⟨y, ys⟩
      · rfl
      · rw [hcb] at hmain hhead
        have hyb : y = b := by
          have := hhead
          simp at this
          exact this
        refine (Bool.and_eq_true _ _).mpr ⟨?_, hmain⟩
        have hfl : (a == '-' && b == '-') = false := by
          cases hx : (a == '-' && b == '-')
          · rfl
          · exact absurd hx hab
        rw [hyb, hfl]
        rfl
  termination_by l => l.length

theorem collapseHyphens_eq_self : ∀ l : List Char,
    noAdjHyphens l = true → collapseHyphens l = l
  | [], _ => rfl
  | [_], _ => rfl
  | a :: b :: r, h => by
    have h2 := (Bool.and_eq_true _ _).mp h
    have hfl : ¬ (a == '-' && b == '-') = true := by
      intro hx
      rw [hx] at h2
      exact absurd h2.1 (by decide)
    rw [collapseHyphens, if_neg hfl, collapseHyphens_eq_self (b :: r) h2.2]

theorem noAdj_dropWhile (p : Char → Bool) : ∀ l : List Char,
    noAdjHyphens l = true → noAdjHyphens (l.dropWhile p) = true
  | [], _ => rfl
  | a :: r, h => by
    rw [List.dropWhile_cons]
    by_cases hp : p a = true
    · rw [if_pos hp]
      exact noAdj_dropWhile p r (noAdj_tail a r h)
    · rw [if_neg hp]
      exact h

theorem head?_trimTrailHyphens : ∀ (l : List Char) (c : Char),
    (trimTrailHyphens l).head? = some c → l.head? = some c
  | [], c, h => by simp [trimTrailHyphens] at h
  | a :: r, c, h => by
    rw [trimTrailHyphens] at h
    rcases hr : trimTrailHyphens r with _ | ⟨y, ys⟩
    · rw [hr] at h
      by_cases ha : (a == '-') = true
      · rw [if_pos ha] at h
        simp at h
      · rw [if_neg ha] at h
        simpa using h
    · rw [hr] at h
      simpa using h

theorem noAdj_trimTrailHyphens : ∀ l : List Char,
    noAdjHyphens l = true → noAdjHyphens (trimTrailHyphens l) = true
  | [], _ => rfl
  | a :: r, h => by
    rw [trimTrailHyphens]
    have hr' := noAdj_trimTrailHyphens r (noAdj_tail a r h)
    rcases hr : trimTrailHyphens r with _ | ⟨y, ys⟩
    · by_cases ha : (a == '-') = true
      · rw [if_pos ha]; rfl
      · rw [if_neg ha]; rfl
    · rw [hr] at hr'
      have hy : r.head? = some y := head?_trimTrailHyphens r y (by rw [hr]; rfl)
      rcases r with _ | ⟨b, r'⟩
      · simp at hy
      · have hb : b = y := by simpa using hy
        refine (Bool.and_eq_true _ _).mpr ⟨?_, hr'⟩
        have hab := ((Bool.and_eq_true _ _).mp h).1
        rw [← hb]
        exact hab

theorem getLast?_trimTrailHyphens : ∀ l : List Char,
    (trimTrailHyphens l).getLast? ≠ some '-'
  | [] => by simp [trimTrailHyphens]
  | a :: r => by
    rw [trimTrailHyphens]
    rcases hr : trimTrailHyphens r with _ | ⟨y, ys⟩
    · by_cases ha : (a == '-') = true
      · rw [if_pos ha]
        simp
      · rw [if_neg ha]
        simpa using fun hc => ha (by rw [hc]; rfl)
    · have := getLast?_trimTrailHyphens r
      rw [hr] at this
      rw [List.getLast?_cons_cons]
      exact this

theorem trimTrailHyphens_eq_self : ∀ l : List Char,
    l.getLast? ≠ some '-' → trimTrailHyphens l = l
  | [], _ => rfl
  | [c], h => by
    have hc : (c == '-') = false := by
      cases hx : (c == '-')
      · rfl
      · exact absurd (show ([c] : List Char).getLast? = some '-' by
          rw [eq_of_beq hx]; rfl) h
    show (if (c == '-') = true then [] else [c]) = [c]
    simp [hc]
  | a :: b :: r, h => by
    rw [List.getLast?_cons_cons] at h
    have hr := trimTrailHyphens_eq_self (b :: r) h
    rw [trimTrailHyphens, hr]

theorem mem_trimTrailHyphens : ∀ (l : List Char) (x : Char),
    x ∈ trimTrailHyphens l → x ∈ l
  | [], _, h => by simpa [trimTrailHyphens] using h
  | a :: r, x, h => by
    rw [trimTrailHyphens] at h
    rcases hr : trimTrailHyphens r with _ | ⟨y, ys⟩
    · rw [hr] at h
      by_cases ha : (a == '-') = true
      · rw [if_pos ha] at h
        simp at h
      · rw [if_neg ha] at h
        simpa using List.mem_cons.mp h |>.elim (fun hx => Or.inl hx) (fun hx => by simp at hx)
    · rw [hr] at h
      rcases List.mem_cons.mp h with rfl | h'
      · exact List.mem_cons_self _ _
      · exact List.mem_cons_of_mem _ (mem_trimTrailHyphens r x (by rw [hr]; exact h'))

theorem head?_dropWhile_false (p : Char → Bool) : ∀ (l : List Char) (c : Char),
    (l.dropWhile p).head? = some c → p c = false
  | [], c, h => by simp [List.dropWhile] at h
  | a :: r, c, h => by
    rw [List.dropWhile_cons] at h
    by_cases hp : p a = true
    · rw [if_pos hp] at h
      exact head?_dropWhile_false p r c h
    · rw [if_neg hp] at h
      have : a = c := by simpa using h
      rw [← this]
      exact Bool.eq_false_iff.mpr hp

theorem dropWhile_eq_self (p : Char → Bool) (l : List Char)
    (h : ∀ c, l.head? = some c → p c = false) : l.dropWhile p = l := by
  cases l with
  | nil => rfl
  | cons a r =>
    rw [List.dropWhile_cons, if_neg]
    rw [h a rfl]
    simp

/-- One full pass is a fixpoint of a second pass. -/
theorem slugCore_idem (l : List Char) : slugCore (slugCore l) = slugCore l := by
  have hnoadj : noAdjHyphens (slugCore l) = true :=
    noAdj_trimTrailHyphens _ (noAdj_dropWhile _ _ (noAdj_collapseHyphens _))
  have hmapfix : ((slugCore l).map fun c => slugChar c.toLower) = slugCore l := by
    have hpt : ∀ x ∈ slugCore l, slugChar x.toLower = x := by
      intro x hx
      have hx1 := mem_trimTrailHyphens _ x hx
      have hx2 := (List.dropWhile_sublist _).subset hx1
      have hx3 := mem_collapseHyphens _ x hx2
      rcases List.mem_map.mp hx3 with ⟨c, _, rfl⟩
      exact slugChar_toLower_idem c
    calc ((slugCore l).map fun c => slugChar c.toLower)
        = (slugCore l).map id := List.map_congr_left hpt
      _ = slugCore l := List.map_id _
  have hcoll : collapseHyphens (slugCore l) = slugCore l :=
    collapseHyphens_eq_self _ hnoadj
  have hdrop : (slugCore l).dropWhile (fun c => c == '-') = slugCore l := by
    refine dropWhile_eq_self _ _ fun c hc => ?_
    have hmid := head?_trimTrailHyphens _ c hc
    exact head?_dropWhile_false _ _ c hmid
  have htrim : trimTrailHyphens (slugCore l) = slugCore l :=
    trimTrailHyphens_eq_self _ (getLast?_trimTrailHyphens _)
  show trimTrailHyphens ((collapseHyphens ((slugCore l).map fun c => slugChar c.toLower)).dropWhile fun c => c == '-') = slugCore l
  rw [hmapfix, hcoll, hdrop, htrim]

/-- C8: slug derivation is idempotent — applying the derivation to its
own output yields the same slug for every store name; in particular
"Acme Shop!!" derives "acme-shop". -/
theorem slug_derivation_idempotent :
    (∀ s : String, slugify (slugify s) = slugify s) ∧
    slugify "Acme Shop!!" = "acme-shop" := by
  constructor
  · intro s
    rw [slugify_eq_core s, slugify_eq_core (String.mk (slugCore s.data))]
    exact congrArg String.mk (slugCore_idem s.data)
  · rfl

end MV
